import Mathlib

/-!
Verification development for the Enphase Envoy integration
(`custom_components/enphase_envoy/__init__.py`).

The Python module is shallowly embedded: each relevant function of the
source becomes a Lean definition over explicit state, exceptions become
`Except` values, and the asynchronous control flow of the stream
supervisor and the stop/unload handlers becomes explicit traces of
events/actions.
-/

namespace EnphaseEnvoy

/-- A Snapshot: the mapping of metric key to scalar value produced by a poll
(`envoy_reader.all_values` in the source) and held in `coordinator.data`.
Python dict semantics are embedded as an association list with distinct keys,
insertion-ordered. Scalar values are modelled as integers. -/
abbrev Snapshot := List (String × Int)

/-- Python `d.get(k)`: the value stored at `k`, or `None` when absent. -/
def dictGet : Snapshot → String → Option Int
  | [], _ => none
  | (k0, v0) :: rest, k => if k0 == k then some v0 else dictGet rest k

/-- Python `d[k] = v`: replace the value at `k` if present, else append. -/
def dictSet (d : Snapshot) (k : String) (v : Int) : Snapshot :=
  match d with
  | [] => [(k, v)]
  | (k0, v0) :: rest =>
    if k0 == k then (k, v) :: rest else (k0, v0) :: dictSet rest k v

/-- Outcome of one call to `envoy_reader.getData()` executed under
`async_timeout.timeout(...)` in `async_update_data` (lines 82-93 of the
source): the call either returns normally, raises `httpx.HTTPStatusError`,
raises some other `httpx.HTTPError` (`HTTPStatusError` is the only
`HTTPStatusError` subclass of `httpx.HTTPError` that the source singles
out, so `raisesHTTPError` stands for any `httpx.HTTPError` that is not an
`HTTPStatusError`), raises a non-httpx exception, or is cut off by the
surrounding `async_timeout` block expiring (which raises
`asyncio.TimeoutError` out of the `async with`). -/
inductive GetDataResult
  | returns
  | raisesHTTPStatusError
  | raisesHTTPError
  | raisesOther
  | timesOut
  deriving DecidableEq

/-- The exceptions that can escape `async_update_data`. -/
inductive Exc
  | configEntryAuthFailed
  | updateFailed
  | asyncioTimeoutError
  | otherError
  deriving DecidableEq

/-- State of the `EnvoyReader` as seen by one poll attempt: how `getData()`
behaves on this invocation and what `envoy_reader.all_values` holds after a
successful `getData()`. -/
structure ReaderState where
  getData : GetDataResult
  all_values : Snapshot
  deriving DecidableEq

/-- Embedding of `async_update_data` (source lines 79-96).

The body runs `envoy_reader.getData()` inside `async_timeout.timeout(...)`;
an `httpx.HTTPStatusError` is re-raised as `ConfigEntryAuthFailed`, any
other `httpx.HTTPError` as `UpdateFailed`, a timeout escapes as
`asyncio.TimeoutError`, and any other exception propagates unchanged.
Only when the block completes normally does control reach
`await envoy_reader._sync_store()` followed by `return data`.

The first component is the returned data or the escaping exception; the
second component records whether `envoy_reader._sync_store()` was executed
during the attempt. -/
def async_update_data (reader : ReaderState) : Except Exc Snapshot × Bool :=
  match reader.getData with
  | GetDataResult.raisesHTTPStatusError => (Except.error Exc.configEntryAuthFailed, false)
  | GetDataResult.raisesHTTPError => (Except.error Exc.updateFailed, false)
  | GetDataResult.raisesOther => (Except.error Exc.otherError, false)
  | GetDataResult.timesOut => (Except.error Exc.asyncioTimeoutError, false)
  | GetDataResult.returns => (Except.ok reader.all_values, true)

/-- Modelled from the spec: the host's `DataUpdateCoordinator` (an external
collaborator, not part of this repository's source) runs the update method
per refresh; on success the returned Snapshot replaces `coordinator.data`
wholesale, on any raised failure the previous `coordinator.data` is left
untouched. Returns the visible Snapshot after the refresh together with the
refresh outcome. `none` stands for a coordinator that has no data yet. -/
def coordinator_poll (prev : Option Snapshot) (reader : ReaderState) :
    Option Snapshot × Except Exc Snapshot :=
  match async_update_data reader with
  | (Except.ok d, _) => (some d, Except.ok d)
  | (Except.error e, _) => (prev, Except.error e)

/-- The visible Snapshot after a whole sequence of scheduled polls. -/
def poll_sequence (readers : List ReaderState) (init : Option Snapshot) :
    Option Snapshot :=
  readers.foldl (fun prev r => (coordinator_poll prev r).1) init

/-- Outcome of the startup logic of `async_setup_entry`, lines 108-112. -/
structure SetupRefreshOutcome where
  readerCalls : Nat
  get_inverters : Bool
  result : Except Exc Snapshot

/-- Embedding of the initial-refresh logic of `async_setup_entry`
(source lines 108-112):

the first `async_config_entry_first_refresh()` runs the update method once
and surfaces its failure; a `ConfigEntryAuthFailed` from it is caught, the
reader's `get_inverters` capability is set to `False`, and the refresh is
run once more, whose outcome now propagates whatever it is. Any other
failure of the first refresh propagates immediately. The reader is
constructed with `inverters=True`, so `get_inverters` starts `true`.
`r1` describes the reader on the first invocation, `r2` on the retry. -/
def setup_initial_refresh (r1 r2 : ReaderState) : SetupRefreshOutcome :=
  match (async_update_data r1).1 with
  | Except.ok d => ⟨1, true, Except.ok d⟩
  | Except.error Exc.configEntryAuthFailed =>
    match (async_update_data r2).1 with
    | Except.ok d => ⟨2, false, Except.ok d⟩
    | Except.error e => ⟨2, false, Except.error e⟩
  | Except.error e => ⟨1, true, Except.error e⟩

/-- C1 (counterexample): the claim says the Token Store sync runs whether the
reader call succeeds or fails; but on a transport failure (an `httpx.HTTPError`
from `getData`), `async_update_data` raises `UpdateFailed` before reaching
`envoy_reader._sync_store()`, so the sync is not performed. -/
theorem sync_store_skipped_on_transport_failure :
    (async_update_data ⟨GetDataResult.raisesHTTPError, []⟩).2 = false ∧
    (async_update_data ⟨GetDataResult.raisesHTTPStatusError, []⟩).2 = false ∧
    (async_update_data ⟨GetDataResult.timesOut, []⟩).2 = false := by
  exact ⟨rfl, rfl, rfl⟩

/-- C1 (amended): `envoy_reader._sync_store()` is performed during a poll
attempt if and only if `getData()` returns without raising and without the
timeout expiring; on auth failure, transport failure, or timeout the raised
exception propagates before the sync statement is reached, so token
persistence is skipped for that cycle. -/
theorem sync_store_iff_success (r : ReaderState) :
    (async_update_data r).2 = true ↔ r.getData = GetDataResult.returns := by
  obtain ⟨g, v⟩ := r
  cases g <;> simp [async_update_data]

/-- C2: a `ConfigEntryAuthFailed` from the first startup refresh disables
`get_inverters` and triggers exactly one retried refresh (two reader
invocations in total); when the retry succeeds, its Snapshot is the first
successful one after exactly 2 reader invocations; a second consecutive
auth failure is not retried again and propagates as `ConfigEntryAuthFailed`
after the same 2 invocations. -/
theorem startup_auth_retry (r2 : ReaderState) (v1 v2 : Snapshot) :
    (setup_initial_refresh ⟨GetDataResult.raisesHTTPStatusError, v1⟩ r2).readerCalls = 2 ∧
    (setup_initial_refresh ⟨GetDataResult.raisesHTTPStatusError, v1⟩ r2).get_inverters = false ∧
    (setup_initial_refresh ⟨GetDataResult.raisesHTTPStatusError, v1⟩
      ⟨GetDataResult.returns, v2⟩).result = Except.ok v2 ∧
    (setup_initial_refresh ⟨GetDataResult.raisesHTTPStatusError, v1⟩
      ⟨GetDataResult.raisesHTTPStatusError, v2⟩).result =
        Except.error Exc.configEntryAuthFailed ∧
    (setup_initial_refresh ⟨GetDataResult.raisesHTTPStatusError, v1⟩
      ⟨GetDataResult.raisesHTTPStatusError, v2⟩).readerCalls = 2 := by
  obtain ⟨g2, w2⟩ := r2
  cases g2 <;> simp [setup_initial_refresh, async_update_data]

/-- C3: over any sequence of failing polls the visible Snapshot is exactly the
initial one — each failing update attempt raises (returns an error, never
data) and the coordinator keeps the previous Snapshot, so nothing is
partially overwritten or cleared. -/
theorem snapshot_preserved_on_failures (readers : List ReaderState)
    (init : Option Snapshot)
    (h : ∀ r ∈ readers, r.getData ≠ GetDataResult.returns) :
    poll_sequence readers init = init ∧
    ∀ r ∈ readers, ∃ e, (async_update_data r).1 = Except.error e := by
  induction readers generalizing init with
  | nil => exact ⟨rfl, by intro r hr; cases hr⟩
  | cons r rest ih =>
    have hr : r.getData ≠ GetDataResult.returns := h r (List.mem_cons_self r rest)
    have hrest : ∀ x ∈ rest, x.getData ≠ GetDataResult.returns :=
      fun x hx => h x (List.mem_cons_of_mem r hx)
    have herr : ∃ e, (async_update_data r).1 = Except.error e := by
      obtain ⟨g, v⟩ := r
      cases g <;> simp_all [async_update_data]
    obtain ⟨e, he⟩ := herr
    have hstep : (coordinator_poll init r).1 = init := by
      unfold coordinator_poll
      obtain ⟨g, v⟩ := r
      cases g <;> simp_all [async_update_data]
    have hseq : poll_sequence (r :: rest) init = poll_sequence rest init := by
      simp [poll_sequence, List.foldl_cons, hstep]
    refine ⟨by rw [hseq]; exact (ih init hrest).1, ?_⟩
    intro x hx
    rcases List.mem_cons.mp hx with hx1 | hx2
    · exact hx1 ▸ ⟨e, he⟩
    · exact (ih init hrest).2 x hx2

/-- C3 (witness): a single transport-failing poll leaves a concrete previous
Snapshot in place and its update attempt produced an error. -/
theorem snapshot_preserved_on_failures_witness :
    (∀ r ∈ [(⟨GetDataResult.raisesHTTPError, []⟩ : ReaderState)],
        r.getData ≠ GetDataResult.returns) ∧
    (poll_sequence [⟨GetDataResult.raisesHTTPError, []⟩] (some [("production_l1", 7)]) =
        some [("production_l1", 7)] ∧
      ∀ r ∈ [(⟨GetDataResult.raisesHTTPError, []⟩ : ReaderState)],
        ∃ e, (async_update_data r).1 = Except.error e) :=
  ⟨by decide,
    snapshot_preserved_on_failures [⟨GetDataResult.raisesHTTPError, []⟩]
      (some [("production_l1", 7)]) (by decide)⟩

/-- C4: the update method raises `ConfigEntryAuthFailed` exactly when
`getData()` raises an `httpx.HTTPStatusError`, and `UpdateFailed` exactly
when it raises any other `httpx.HTTPError`; no other outcome of the reader
(success, timeout, or a non-httpx exception) produces either of these. -/
theorem failure_classification (r : ReaderState) :
    ((async_update_data r).1 = Except.error Exc.configEntryAuthFailed ↔
      r.getData = GetDataResult.raisesHTTPStatusError) ∧
    ((async_update_data r).1 = Except.error Exc.updateFailed ↔
      r.getData = GetDataResult.raisesHTTPError) := by
  obtain ⟨g, v⟩ := r
  cases g <;> simp [async_update_data]

/-- One phase of a `StreamData` frame as read by `update_production_meters`:
the fields `watts`, `volt`, `amps`, `volt_ampere`, `pf`, `var`, `hz` of
`streamdata.production[phase]` (and `watts` of `streamdata.consumption[phase]`). -/
structure PhaseReading where
  watts : Int
  volt : Int
  amps : Int
  volt_ampere : Int
  pf : Int
  var : Int
  hz : Int

/-- A decoded `/stream/meter` frame (`StreamData` in the source): per-phase
production and consumption readings, indexed by the phase label. -/
structure StreamData where
  production : String → PhaseReading
  consumption : String → PhaseReading

/-- The phase labels iterated by `update_production_meters`. -/
def phases : List String := ["l1", "l2", "l3"]

/-- The eight key/value pairs `update_production_meters` adds to `new_data`
for one phase (source lines 143-158): the raw production watts are passed
through `envoy_reader.process_production_value` (here the parameter
`adjust`), every other quantity is taken from the frame unmodified. -/
def phase_metrics (adjust : Int → Int) (streamdata : StreamData)
    (phase : String) : List (String × Int) :=
  [("production_" ++ phase, adjust (streamdata.production phase).watts),
   ("voltage_" ++ phase, (streamdata.production phase).volt),
   ("ampere_" ++ phase, (streamdata.production phase).amps),
   ("apparent_power_" ++ phase, (streamdata.production phase).volt_ampere),
   ("power_factor" ++ phase, (streamdata.production phase).pf),
   ("reactive_power_" ++ phase, (streamdata.production phase).var),
   ("frequency_" ++ phase, (streamdata.production phase).hz),
   ("consumption_" ++ phase, (streamdata.consumption phase).watts)]

/-- The full `new_data` dict built by an admitted call of
`update_production_meters`: the phase metrics for `l1`, `l2`, `l3` in
iteration order. All 24 keys are distinct, so the association list is a
faithful image of the Python dict. -/
def new_data (adjust : Int → Int) (streamdata : StreamData) :
    List (String × Int) :=
  (phases.map (phase_metrics adjust streamdata)).flatten

/-- The publication loop of `update_production_meters` (source lines
160-166): for each `(key, value)` of `new_data` in order, if a live entity
is registered for `key` and `coordinator.data.get(key) != value`, write the
value into `coordinator.data` and notify that entity
(`async_write_ha_state`). `live` is the set of keys with a live entity in
`live_entities`; the second result collects the notified keys in order. -/
def publish_loop (live : List String) :
    List (String × Int) → Snapshot → List String → Snapshot × List String
  | [], data, notified => (data, notified)
  | (k, v) :: rest, data, notified =>
    if live.contains k ∧ dictGet data k ≠ some v then
      publish_loop live rest (dictSet data k v) (notified ++ [k])
    else
      publish_loop live rest data notified

/-- Embedding of one admitted call of `update_production_meters`
(source lines 140-166): build `new_data` from the frame, then run the
publication loop against the coordinator's shared state. -/
def update_production_meters (adjust : Int → Int) (live : List String)
    (streamdata : StreamData) (data : Snapshot) : Snapshot × List String :=
  publish_loop live (new_data adjust streamdata) data []

theorem dictGet_dictSet_self (d : Snapshot) (k : String) (v : Int) :
    dictGet (dictSet d k v) k = some v := by
  induction d with
  | nil => simp [dictSet, dictGet]
  | cons p rest ih =>
    obtain ⟨ka, va⟩ := p
    by_cases h : ka = k
    · subst h
      simp [dictSet, dictGet]
    · have hb : (ka == k) = false := beq_false_of_ne h
      simp [dictSet, hb, dictGet, ih]

theorem dictGet_dictSet_ne (d : Snapshot) (k k2 : String) (v : Int)
    (h : k ≠ k2) : dictGet (dictSet d k v) k2 = dictGet d k2 := by
  have hb : (k == k2) = false := beq_false_of_ne h
  induction d with
  | nil => simp [dictSet, dictGet, hb]
  | cons p rest ih =>
    obtain ⟨ka, va⟩ := p
    by_cases ha : ka = k
    · subst ha
      simp [dictSet, dictGet, hb]
    · have hba : (ka == k) = false := beq_false_of_ne ha
      simp [dictSet, hba, dictGet, ih]

theorem publish_loop_not_mem (live : List String)
    (entries : List (String × Int)) (data : Snapshot) (notified : List String)
    (k : String) (h : k ∉ entries.map Prod.fst) :
    dictGet (publish_loop live entries data notified).1 k = dictGet data k ∧
    (k ∈ (publish_loop live entries data notified).2 ↔ k ∈ notified) := by
  induction entries generalizing data notified with
  | nil => simp [publish_loop]
  | cons p rest ih =>
    obtain ⟨ka, va⟩ := p
    rw [List.map_cons] at h
    have hk : k ≠ ka := fun e => h (by simp [e])
    have hrest : k ∉ rest.map Prod.fst := fun e => h (List.mem_cons_of_mem _ e)
    by_cases hc : live.contains ka = true ∧ dictGet data ka ≠ some va
    · have step : publish_loop live ((ka, va) :: rest) data notified =
          publish_loop live rest (dictSet data ka va) (notified ++ [ka]) := by
        simp only [publish_loop]
        rw [if_pos hc]
      rw [step]
      obtain ⟨h1, h2⟩ := ih (dictSet data ka va) (notified ++ [ka]) hrest
      refine ⟨?_, ?_⟩
      · rw [h1]
        exact dictGet_dictSet_ne data ka k va (fun e => hk e.symm)
      · rw [h2]
        simp [List.mem_append, hk]
    · have step : publish_loop live ((ka, va) :: rest) data notified =
          publish_loop live rest data notified := by
        simp only [publish_loop]
        rw [if_neg hc]
      rw [step]
      exact ih data notified hrest

theorem publish_loop_head_case (live : List String) (rest : List (String × Int))
    (data : Snapshot) (notified : List String) (k : String) (v : Int)
    (hnd0 : k ∉ rest.map Prod.fst) :
    (k ∈ (publish_loop live ((k, v) :: rest) data notified).2 ↔
      (k ∈ notified ∨ (live.contains k = true ∧ dictGet data k ≠ some v))) ∧
    dictGet (publish_loop live ((k, v) :: rest) data notified).1 k =
      (if live.contains k = true ∧ dictGet data k ≠ some v
        then some v else dictGet data k) := by
  by_cases hc : live.contains k = true ∧ dictGet data k ≠ some v
  · have step : publish_loop live ((k, v) :: rest) data notified =
        publish_loop live rest (dictSet data k v) (notified ++ [k]) := by
      simp only [publish_loop]
      rw [if_pos hc]
    rw [step]
    obtain ⟨h1, h2⟩ :=
      publish_loop_not_mem live rest (dictSet data k v) (notified ++ [k]) k hnd0
    refine ⟨?_, ?_⟩
    · rw [h2]
      have hl : k ∈ notified ++ [k] :=
        List.mem_append.mpr (Or.inr (List.mem_singleton.mpr rfl))
      exact ⟨fun _ => Or.inr hc, fun _ => hl⟩
    · rw [h1, dictGet_dictSet_self, if_pos hc]
  · have step : publish_loop live ((k, v) :: rest) data notified =
        publish_loop live rest data notified := by
      simp only [publish_loop]
      rw [if_neg hc]
    rw [step]
    obtain ⟨h1, h2⟩ := publish_loop_not_mem live rest data notified k hnd0
    refine ⟨?_, ?_⟩
    · rw [h2]
      exact ⟨Or.inl, fun h => h.elim id (fun hx => absurd hx hc)⟩
    · rw [h1, if_neg hc]

theorem publish_loop_mem (live : List String)
    (entries : List (String × Int)) (data : Snapshot) (notified : List String)
    (k : String) (v : Int) (hmem : (k, v) ∈ entries)
    (hnd : (entries.map Prod.fst).Nodup) :
    (k ∈ (publish_loop live entries data notified).2 ↔
      (k ∈ notified ∨ (live.contains k = true ∧ dictGet data k ≠ some v))) ∧
    dictGet (publish_loop live entries data notified).1 k =
      (if live.contains k = true ∧ dictGet data k ≠ some v
        then some v else dictGet data k) := by
  induction entries generalizing data notified with
  | nil => cases hmem
  | cons p rest ih =>
    obtain ⟨ka, va⟩ := p
    rw [List.map_cons] at hnd
    have hnd0 : ka ∉ rest.map Prod.fst := (List.nodup_cons.mp hnd).1
    have hndrest : (rest.map Prod.fst).Nodup := (List.nodup_cons.mp hnd).2
    rcases List.mem_cons.mp hmem with heq | hmem2
    · injection heq with e1 e2
      subst e1
      subst e2
      exact publish_loop_head_case live rest data notified k v hnd0
    · have hk0 : k ≠ ka := by
        intro e
        subst e
        exact hnd0 (List.mem_map.mpr ⟨(k, v), hmem2, rfl⟩)
      by_cases hc : live.contains ka = true ∧ dictGet data ka ≠ some va
      · have step : publish_loop live ((ka, va) :: rest) data notified =
            publish_loop live rest (dictSet data ka va) (notified ++ [ka]) := by
          simp only [publish_loop]
          rw [if_pos hc]
        rw [step]
        obtain ⟨h1, h2⟩ := ih (dictSet data ka va) (notified ++ [ka]) hmem2 hndrest
        have hget : dictGet (dictSet data ka va) k = dictGet data k :=
          dictGet_dictSet_ne data ka k va (fun e => hk0 e.symm)
        refine ⟨?_, ?_⟩
        · rw [h1, hget]
          simp [List.mem_append, hk0]
        · rw [h2, hget]
      · have step : publish_loop live ((ka, va) :: rest) data notified =
            publish_loop live rest data notified := by
          simp only [publish_loop]
          rw [if_neg hc]
        rw [step]
        exact ih data notified hmem2 hndrest

theorem new_data_keys (adjust : Int → Int) (streamdata : StreamData) :
    (new_data adjust streamdata).map Prod.fst =
      ["production_l1", "voltage_l1", "ampere_l1", "apparent_power_l1",
       "power_factorl1", "reactive_power_l1", "frequency_l1", "consumption_l1",
       "production_l2", "voltage_l2", "ampere_l2", "apparent_power_l2",
       "power_factorl2", "reactive_power_l2", "frequency_l2", "consumption_l2",
       "production_l3", "voltage_l3", "ampere_l3", "apparent_power_l3",
       "power_factorl3", "reactive_power_l3", "frequency_l3", "consumption_l3"] := rfl

theorem new_data_keys_nodup (adjust : Int → Int) (streamdata : StreamData) :
    ((new_data adjust streamdata).map Prod.fst).Nodup := by
  rw [new_data_keys]
  decide

/-- C5: on an admitted frame, for every derived key the publisher notifies the
key's subscriber and the key's stored value becomes the derived value if and
only if a live subscriber is registered for that key and the derived value
differs from the value currently in shared state; otherwise the stored value
is untouched. Keys outside the derived set are never notified and never
written. -/
theorem publisher_writes_and_notifies_iff (adjust : Int → Int)
    (live : List String) (streamdata : StreamData) (data : Snapshot) :
    (∀ k v, (k, v) ∈ new_data adjust streamdata →
      ((k ∈ (update_production_meters adjust live streamdata data).2 ↔
        (live.contains k = true ∧ dictGet data k ≠ some v)) ∧
      dictGet (update_production_meters adjust live streamdata data).1 k =
        (if live.contains k = true ∧ dictGet data k ≠ some v
          then some v else dictGet data k))) ∧
    (∀ k, k ∉ (new_data adjust streamdata).map Prod.fst →
      (k ∉ (update_production_meters adjust live streamdata data).2 ∧
      dictGet (update_production_meters adjust live streamdata data).1 k =
        dictGet data k)) := by
  constructor
  · intro k v hmem
    obtain ⟨h1, h2⟩ := publish_loop_mem live (new_data adjust streamdata) data []
      k v hmem (new_data_keys_nodup adjust streamdata)
    refine ⟨?_, h2⟩
    rw [show (update_production_meters adjust live streamdata data).2 =
      (publish_loop live (new_data adjust streamdata) data []).2 from rfl, h1]
    simp
  · intro k hk
    obtain ⟨h1, h2⟩ :=
      publish_loop_not_mem live (new_data adjust streamdata) data [] k hk
    exact ⟨fun hm => by simpa using h2.mp hm, h1⟩

/-- A concrete frame used to instantiate the publisher theorems. -/
def sdExample : StreamData where
  production := fun _ => ⟨5, 230, 2, 460, 99, 3, 50⟩
  consumption := fun _ => ⟨7, 231, 1, 231, 98, 4, 50⟩

/-- A concrete value-adjustment policy mirroring the negative-production
clamp performed by `process_production_value`. -/
def adjExample : Int → Int := fun v => if v < 0 then 0 else v

/-- C5 (witness): concrete instantiation of the publisher theorem at the key
`production_l1`, a registry containing only that key, and empty shared state. -/
theorem publisher_writes_and_notifies_iff_witness :
    (("production_l1", (5 : Int)) ∈ new_data adjExample sdExample) ∧
    (("production_l1" ∈
        (update_production_meters adjExample ["production_l1"] sdExample []).2 ↔
      ((["production_l1"].contains "production_l1") = true ∧
        dictGet [] "production_l1" ≠ some 5)) ∧
    dictGet (update_production_meters adjExample ["production_l1"] sdExample []).1
        "production_l1" =
      (if (["production_l1"].contains "production_l1") = true ∧
          dictGet [] "production_l1" ≠ some 5
        then some 5 else dictGet [] "production_l1")) :=
  ⟨by decide,
    (publisher_writes_and_notifies_iff adjExample ["production_l1"] sdExample []).1
      "production_l1" 5 (by decide)⟩

/-- C9: an admitted frame yields exactly 24 derived metrics — eight per phase
for `l1`, `l2`, `l3` — where the production watts of each phase have been
passed through the reader's value-adjustment policy while volts, amps,
apparent power, power factor, reactive power, frequency and consumption
watts are taken from the frame unmodified. -/
theorem derived_metrics_per_phase (adjust : Int → Int) (streamdata : StreamData)
    (p : String) (hp : p ∈ phases) :
    (new_data adjust streamdata).length = 24 ∧
    dictGet (new_data adjust streamdata) ("production_" ++ p) =
      some (adjust (streamdata.production p).watts) ∧
    dictGet (new_data adjust streamdata) ("voltage_" ++ p) =
      some (streamdata.production p).volt ∧
    dictGet (new_data adjust streamdata) ("ampere_" ++ p) =
      some (streamdata.production p).amps ∧
    dictGet (new_data adjust streamdata) ("apparent_power_" ++ p) =
      some (streamdata.production p).volt_ampere ∧
    dictGet (new_data adjust streamdata) ("power_factor" ++ p) =
      some (streamdata.production p).pf ∧
    dictGet (new_data adjust streamdata) ("reactive_power_" ++ p) =
      some (streamdata.production p).var ∧
    dictGet (new_data adjust streamdata) ("frequency_" ++ p) =
      some (streamdata.production p).hz ∧
    dictGet (new_data adjust streamdata) ("consumption_" ++ p) =
      some (streamdata.consumption p).watts := by
  simp only [phases, List.mem_cons, List.not_mem_nil, or_false] at hp
  rcases hp with rfl | rfl | rfl
  · exact ⟨rfl, rfl, rfl, rfl, rfl, rfl, rfl, rfl, rfl⟩
  · exact ⟨rfl, rfl, rfl, rfl, rfl, rfl, rfl, rfl, rfl⟩
  · exact ⟨rfl, rfl, rfl, rfl, rfl, rfl, rfl, rfl, rfl⟩

/-- C9 (witness): the per-phase derivation theorem instantiated at phase `l1`
with a concrete frame and the concrete clamping policy. -/
theorem derived_metrics_per_phase_witness :
    ("l1" ∈ phases) ∧
    ((new_data adjExample sdExample).length = 24 ∧
    dictGet (new_data adjExample sdExample) ("production_" ++ "l1") =
      some (adjExample (sdExample.production "l1").watts) ∧
    dictGet (new_data adjExample sdExample) ("voltage_" ++ "l1") =
      some (sdExample.production "l1").volt ∧
    dictGet (new_data adjExample sdExample) ("ampere_" ++ "l1") =
      some (sdExample.production "l1").amps ∧
    dictGet (new_data adjExample sdExample) ("apparent_power_" ++ "l1") =
      some (sdExample.production "l1").volt_ampere ∧
    dictGet (new_data adjExample sdExample) ("power_factor" ++ "l1") =
      some (sdExample.production "l1").pf ∧
    dictGet (new_data adjExample sdExample) ("reactive_power_" ++ "l1") =
      some (sdExample.production "l1").var ∧
    dictGet (new_data adjExample sdExample) ("frequency_" ++ "l1") =
      some (sdExample.production "l1").hz ∧
    dictGet (new_data adjExample sdExample) ("consumption_" ++ "l1") =
      some (sdExample.consumption "l1").watts) :=
  ⟨by decide, derived_metrics_per_phase adjExample sdExample "l1" (by decide)⟩

/-- C10: the derived key for the power-factor quantity of each phase is the
string `power_factor` concatenated directly with the phase label (no
underscore before the suffix), while the other seven per-phase keys all
carry an underscore before the phase suffix; in particular the underscored
variant `power_factor_<phase>` is absent from the derived set. -/
theorem power_factor_key_lacks_separator (adjust : Int → Int)
    (streamdata : StreamData) :
    (new_data adjust streamdata).map Prod.fst =
      ["production_l1", "voltage_l1", "ampere_l1", "apparent_power_l1",
       "power_factorl1", "reactive_power_l1", "frequency_l1", "consumption_l1",
       "production_l2", "voltage_l2", "ampere_l2", "apparent_power_l2",
       "power_factorl2", "reactive_power_l2", "frequency_l2", "consumption_l2",
       "production_l3", "voltage_l3", "ampere_l3", "apparent_power_l3",
       "power_factorl3", "reactive_power_l3", "frequency_l3", "consumption_l3"] ∧
    ("power_factor" ++ "l1" = "power_factorl1") ∧
    dictGet (new_data adjust streamdata) "power_factor_l1" = none ∧
    dictGet (new_data adjust streamdata) "power_factor_l2" = none ∧
    dictGet (new_data adjust streamdata) "power_factor_l3" = none :=
  ⟨new_data_keys adjust streamdata, rfl, rfl, rfl, rfl⟩

/-- Observable events of the `read_realtime_updates` loop: the stream being
opened (`envoy_reader.stream_reader(...)` awaited), the permanent stop on a
`False` result, the fixed reconnect delay (`asyncio.sleep(30)`), and the
loop exiting because its `while` condition became false. -/
inductive StreamEvent
  | streamOpened
  | terminalStop
  | reconnectSleep (seconds : Nat)
  | loopExit
  deriving DecidableEq

/-- The ambient state read by the `while` condition of
`read_realtime_updates` at the top of one iteration:
`hass.state == CoreState.not_running`, `hass.is_running`, and
`options.get("enable_realtime_updates", False)`. -/
structure LoopContext where
  state_not_running : Bool
  is_running : Bool
  enable_realtime_updates : Bool
  deriving DecidableEq

/-- The `while` condition of `read_realtime_updates` (source lines 169-173);
Python parses it as `A or (B and C)`. -/
def loop_condition (c : LoopContext) : Bool :=
  c.state_not_running || (c.is_running && c.enable_realtime_updates)

/-- Embedding of `read_realtime_updates` (source lines 168-186) as the trace
of events produced while consuming one `(context, stream result)` pair per
iteration: when the condition holds, the stream is opened and awaited; a
`False` result logs and returns (terminal); any other result sleeps 30
seconds and iterates again. An exhausted iteration list ends the modelled
trace. -/
def read_realtime_updates : List (LoopContext × Bool) → List StreamEvent
  | [] => []
  | (c, result) :: rest =>
    if loop_condition c then
      if result = false then
        [StreamEvent.streamOpened, StreamEvent.terminalStop]
      else
        StreamEvent.streamOpened :: StreamEvent.reconnectSleep 30 ::
          read_realtime_updates rest
    else
      [StreamEvent.loopExit]

theorem terminalStop_ends_trace (iterations : List (LoopContext × Bool))
    (h : StreamEvent.terminalStop ∈ read_realtime_updates iterations) :
    ∃ pre, read_realtime_updates iterations =
      pre ++ [StreamEvent.terminalStop] := by
  induction iterations with
  | nil => simp [read_realtime_updates] at h
  | cons it rest ih =>
    obtain ⟨c, result⟩ := it
    by_cases hc : loop_condition c = true
    · cases result
      · exact ⟨[StreamEvent.streamOpened], by simp [read_realtime_updates, hc]⟩
      · have hser : read_realtime_updates ((c, true) :: rest) =
            StreamEvent.streamOpened :: StreamEvent.reconnectSleep 30 ::
              read_realtime_updates rest := by
          simp [read_realtime_updates, hc]
        rw [hser] at h
        have hmem : StreamEvent.terminalStop ∈ read_realtime_updates rest := by
          rcases List.mem_cons.mp h with h1 | h2
          · cases h1
          · rcases List.mem_cons.mp h2 with h3 | h4
            · cases h3
            · exact h4
        obtain ⟨pre, hpre⟩ := ih hmem
        refine ⟨StreamEvent.streamOpened :: StreamEvent.reconnectSleep 30 :: pre, ?_⟩
        rw [hser, hpre]
        rfl
    · have hfalse : loop_condition c = false := by
        cases hcv : loop_condition c
        · rfl
        · exact absurd hcv hc
      have : read_realtime_updates ((c, result) :: rest) =
          [StreamEvent.loopExit] := by
        simp [read_realtime_updates, hfalse]
      rw [this] at h
      rcases List.mem_cons.mp h with h1 | h2
      · cases h1
      · cases h2

/-- C6: when the loop condition holds, a stream that ends with the definitive
`False` result makes `read_realtime_updates` return permanently — the trace
ends at the terminal stop no matter what later iterations would hold, and
in every trace nothing follows a terminal stop; any other stream end is
followed by the fixed 30-second delay and a new stream open, repeated while
the condition holds; a false condition exits the loop. -/
theorem stream_supervisor_reconnect_policy :
    (∀ (c : LoopContext) (rest : List (LoopContext × Bool)),
      loop_condition c = true →
        read_realtime_updates ((c, false) :: rest) =
          [StreamEvent.streamOpened, StreamEvent.terminalStop]) ∧
    (∀ (c : LoopContext) (rest : List (LoopContext × Bool)),
      loop_condition c = true →
        read_realtime_updates ((c, true) :: rest) =
          StreamEvent.streamOpened :: StreamEvent.reconnectSleep 30 ::
            read_realtime_updates rest) ∧
    (∀ iterations : List (LoopContext × Bool),
      StreamEvent.terminalStop ∈ read_realtime_updates iterations →
        ∃ pre, read_realtime_updates iterations =
          pre ++ [StreamEvent.terminalStop]) ∧
    (∀ (c : LoopContext) (r : Bool) (rest : List (LoopContext × Bool)),
      loop_condition c = false →
        read_realtime_updates ((c, r) :: rest) = [StreamEvent.loopExit]) := by
  refine ⟨?_, ?_, terminalStop_ends_trace, ?_⟩
  · intro c rest hc
    simp [read_realtime_updates, hc]
  · intro c rest hc
    simp [read_realtime_updates, hc]
  · intro c r rest hc
    simp [read_realtime_updates, hc]

/-- C6 (witness): a running host with realtime enabled whose stream returns
`False` on the first read produces exactly one open followed by the
permanent stop. -/
theorem stream_supervisor_reconnect_policy_witness :
    loop_condition ⟨false, true, true⟩ = true ∧
    read_realtime_updates [(⟨false, true, true⟩, false)] =
      [StreamEvent.streamOpened, StreamEvent.terminalStop] :=
  ⟨rfl, stream_supervisor_reconnect_policy.1 ⟨false, true, true⟩ [] rfl⟩

/-- Actions observable from the stop/unload paths: cancelling the stream
task, awaiting the cancelled task inside `suppress(asyncio.CancelledError)`,
writing `False` into `hass.data[DOMAIN][entry_id]["realtime_loop"]`,
unloading the platforms, and popping the entry's data. -/
inductive StopAction
  | cancelTask
  | awaitTaskSuppressCancel
  | setRealtimeLoopFalse
  | unloadPlatforms
  | popEntryData
  deriving DecidableEq

/-- The Python exceptions raised by the stop path. -/
inductive PyError
  | attributeError
  deriving DecidableEq

/-- Embedding of the `_async_stop` handler (source lines 193-198), registered
for `EVENT_HOMEASSISTANT_STOP` whether or not a stream task was started. It
runs `task.cancel()` unconditionally on the closed-over `task` variable: when
realtime updates are disabled that variable is still `None`, and
`None.cancel()` raises `AttributeError` before the flag assignment is
reached. When a task exists, the handler cancels it and writes the flag but
never awaits the task. -/
def _async_stop (task : Option Unit) : Except PyError (List StopAction) :=
  match task with
  | none => Except.error PyError.attributeError
  | some _ =>
    Except.ok [StopAction.cancelTask, StopAction.setRealtimeLoopFalse]

/-- Embedding of `async_unload_entry` (source lines 210-225): the stored
`realtime_loop` value is truthy only when a task was started (it holds
`None` when realtime is disabled, or `False` after a stop), in which case
the task is cancelled and awaited inside `suppress(asyncio.CancelledError)`
and the flag is reset; then the platforms are unloaded and, on success, the
entry's data is popped. -/
def async_unload_entry (stored_task : Option Unit) (unload_ok : Bool) :
    Except PyError (List StopAction) :=
  match stored_task with
  | some _ =>
    Except.ok ([StopAction.cancelTask, StopAction.awaitTaskSuppressCancel,
      StopAction.setRealtimeLoopFalse, StopAction.unloadPlatforms] ++
        (if unload_ok then [StopAction.popEntryData] else []))
  | none =>
    Except.ok ([StopAction.unloadPlatforms] ++
      (if unload_ok then [StopAction.popEntryData] else []))

/-- C7 (counterexample): with a live stream task, the host-stop handler
cancels the task but its action list contains no await of the cancelled
task, refuting the claim that both the shutdown and unload paths await
completion before proceeding. -/
theorem stop_handler_never_awaits :
    _async_stop (some ()) =
      Except.ok [StopAction.cancelTask, StopAction.setRealtimeLoopFalse] ∧
    StopAction.awaitTaskSuppressCancel ∉
      [StopAction.cancelTask, StopAction.setRealtimeLoopFalse] :=
  ⟨rfl, by decide⟩

/-- C7 (amended): only the explicit unload path cancels the stream task and
then awaits its completion with the expected cancellation outcome
suppressed before proceeding; the host-stop handler merely cancels the task
and does not await it. -/
theorem unload_awaits_stop_does_not (unload_ok : Bool) :
    (∃ post, async_unload_entry (some ()) unload_ok =
      Except.ok ([StopAction.cancelTask, StopAction.awaitTaskSuppressCancel] ++
        post)) ∧
    _async_stop (some ()) =
      Except.ok [StopAction.cancelTask, StopAction.setRealtimeLoopFalse] ∧
    StopAction.awaitTaskSuppressCancel ∉
      [StopAction.cancelTask, StopAction.setRealtimeLoopFalse] := by
  cases unload_ok <;> exact ⟨⟨_, rfl⟩, rfl, by decide⟩

/-- C8: with realtime updates disabled the stored task handle is `None`; the
unload handler then skips cancellation and completes, but the registered
host-stop handler evaluates `task.cancel()` on `None` and raises
`AttributeError` instead of completing without error, contradicting the
claimed idempotent, always-safe stop path. -/
theorem stop_with_no_task_raises :
    _async_stop none = Except.error PyError.attributeError ∧
    async_unload_entry none true =
      Except.ok [StopAction.unloadPlatforms, StopAction.popEntryData] ∧
    async_unload_entry none false = Except.ok [StopAction.unloadPlatforms] :=
  ⟨rfl, rfl, rfl⟩

end EnphaseEnvoy
